import Mathlib

/-!
Verification of the deepquant-cex-go-sdk client library: a shallow
embedding, in Lean, of the rate limiter (`pkg/client/rate_limiter.go`),
the shared HTTP transport configuration (`HTTPClient` in the same
package), the Gemini request-signing pipeline
(`pkg/exchanges/gemini/order.go`, `fund.go`), the response-envelope
handling, and the symbol/currency helpers (`gemini.go`, `market.go`),
together with proofs of the behavioural properties stated in the
project specification.

Go machine integers (`int`, `int64`, `time.Duration`) are modelled as
`Int` (no operation in the verified code paths approaches 2^63, so
overflow is not modelled); byte strings are `List Nat` with every
element below 256; Go maps are association lists with unique keys;
time is an explicit `Int` parameter standing for the nanosecond
clock reading that `time.Now()` returns at each call.
-/

namespace CexSdk

/-! ## Error model (`pkg/errors/errors.go`)

Go `error` values reaching the verified code are either one of the two
context sentinel errors (`context.Canceled`, `context.DeadlineExceeded`),
a plain error string, or an `*SDKError` carrying a code, a message and an
optional wrapped cause. The `ErrorCode` constants are Go string constants
and are kept as their string values. -/

/-- Error code constant `errors.ErrInvalidInput`. -/
def ErrInvalidInput : String := "INVALID_INPUT"

/-- Error code constant `errors.ErrRateLimit`. -/
def ErrRateLimit : String := "RATE_LIMIT_EXCEEDED"

/-- Error code constant `errors.ErrNetworkError`. -/
def ErrNetworkError : String := "NETWORK_ERROR"

/-- Error code constant `errors.ErrDataParsingError`. -/
def ErrDataParsingError : String := "DATA_PARSING_ERROR"

/-- Error code constant `errors.ErrAPIError`. -/
def ErrAPIError : String := "API_ERROR"

/-- A Go `error` value as seen by this library: a context sentinel error
(`ctxErr false` = `context.Canceled`, `ctxErr true` =
`context.DeadlineExceeded`), a plain error string, or an `*errors.SDKError`
(code, message, optional wrapped cause; the `Details` field is never set on
the verified paths and is omitted). -/
inductive GoError where
  | ctxErr (isDeadline : Bool)
  | str (s : String)
  | sdk (code : String) (message : String) (cause : Option GoError)
deriving Repr

/-- Constructor `errors.New(code, message)`. -/
def GoError.New (code message : String) : GoError :=
  .sdk code message none

/-- Constructor `errors.Wrap(code, message, cause)`. -/
def GoError.Wrap (code message : String) (cause : GoError) : GoError :=
  .sdk code message (some cause)

/-- Accessor `errors.GetCode`: the code of an `SDKError`, `UNKNOWN_ERROR`
for any other error value. -/
def GoError.code : GoError → String
  | .sdk c _ _ => c
  | _ => "UNKNOWN_ERROR"

/-- Accessor for the wrapped cause (`SDKError.Unwrap`). -/
def GoError.cause : GoError → Option GoError
  | .sdk _ _ c => c
  | _ => none

/-! ## RateLimiter (`pkg/client/rate_limiter.go`)

The token bucket: `tokens` and `maxTokens` are Go `int`s, `interval` is a
`time.Duration` (int64 nanoseconds) and `lastRefill` a clock reading in
nanoseconds. The mutex serialises `Wait`/`TryAcquire`, so each call is
one atomic state transition and is modelled as a pure function from the
state and the current clock reading to the result and the next state. -/

structure RateLimiter where
  tokens : Int
  maxTokens : Int
  interval : Int
  lastRefill : Int
deriving DecidableEq, Repr

/-- Constructor `NewRateLimiter(maxTokens, interval)`; `lastRefill` is the
clock reading at construction time. -/
def NewRateLimiter (maxTokens : Int) (interval : Int) (now : Int) : RateLimiter :=
  { tokens := maxTokens, maxTokens := maxTokens, interval := interval, lastRefill := now }

/-- Refill block shared verbatim by `Wait` and `TryAcquire`: if a whole
interval has elapsed since `lastRefill`, add one token per whole elapsed
interval, capped at `maxTokens` (`periods := int(elapsed / rl.interval)`;
Go integer division truncates, hence `Int.tdiv`). -/
def RateLimiter.refillAt (rl : RateLimiter) (now : Int) : RateLimiter :=
  let elapsed := now - rl.lastRefill
  if rl.interval ≤ elapsed then
    { rl with tokens := min rl.maxTokens (rl.tokens + elapsed.tdiv rl.interval),
              lastRefill := now }
  else
    rl

/-- Method `TryAcquire`: refill, then consume a token only if one is
available; never blocks. Returns the Go boolean and the updated state. -/
def RateLimiter.TryAcquire (rl : RateLimiter) (now : Int) : Bool × RateLimiter :=
  let rl1 := rl.refillAt now
  if rl1.tokens ≤ 0 then
    (false, rl1)
  else
    (true, { rl1 with tokens := rl1.tokens - 1 })

/-- A Go runtime fatal error: unlike a panic it cannot be recovered and
kills the whole process. The only one arising in this code base is
`sync.Mutex.Unlock` on a mutex that is not locked
(`fatal error: sync: unlock of unlocked mutex`). -/
inductive GoFatal where
  | unlockOfUnlockedMutex
deriving DecidableEq, Repr

/-- Semantics of `rl.mu.Unlock()` as seen by the single goroutine the
mutex serialises: with the lock held it releases it; with the lock not
held the Go runtime aborts the process. (If another goroutine held the
mutex in that window, its lock would be released instead — equally a
protocol violation; the single-caller view is modelled.) -/
def mutexUnlock (locked : Bool) : Except GoFatal Unit :=
  match locked with
  | true => .ok ()
  | false => .error GoFatal.unlockOfUnlockedMutex

/-- Method `Wait(ctx)`, translated together with its mutex protocol:
`rl.mu.Lock()` on entry, `defer rl.mu.Unlock()` running at every
return, refill; if no token is available, compute `waitTime`, explicitly
`rl.mu.Unlock()` and block on
`select \x7b ctx.Done() / time.After(waitTime) \x7d` (the environment's
choice of arm is the explicit parameter `ctxDone`, with `ctxIsDeadline`
choosing between `context.Canceled` and `context.DeadlineExceeded` as
the value of `ctx.Err()`).

On the `ctx.Done()` arm the code executes `return ctx.Err()` WITHOUT
re-locking, so the deferred `Unlock` fires on the already-unlocked mutex
— the Go runtime fatal derived here by applying `mutexUnlock` to the
tracked lock state: the returned `ctx.Err()` value never reaches the
caller. On the timer arm the goroutine wakes at `now + waitTime`,
re-locks, sets `tokens = 1` and `lastRefill` to the wake time, falls
through to the common `rl.tokens--`, and the deferred `Unlock` finds the
mutex locked. The first component is the run's outcome (fatal, or the
value returned to the caller); the second is the limiter's memory at
that moment. -/
def RateLimiter.Wait (rl : RateLimiter) (now : Int) (ctxDone : Bool)
    (ctxIsDeadline : Bool) : Except GoFatal (Option GoError) × RateLimiter :=
  let locked := true
  let rl1 := rl.refillAt now
  if rl1.tokens ≤ 0 then
    let waitTime := rl1.interval - (now - rl1.lastRefill).tmod rl1.interval
    let locked := false
    if ctxDone then
      match mutexUnlock locked with
      | .error f => (.error f, rl1)
      | .ok _ => (.ok (some (GoError.ctxErr ctxIsDeadline)), rl1)
    else
      let locked := true
      let rl2 := { rl1 with tokens := 1, lastRefill := now + waitTime }
      let rl3 := { rl2 with tokens := rl2.tokens - 1 }
      match mutexUnlock locked with
      | .error f => (.error f, rl3)
      | .ok _ => (.ok none, rl3)
  else
    let rl2 := { rl1 with tokens := rl1.tokens - 1 }
    match mutexUnlock locked with
    | .error f => (.error f, rl2)
    | .ok _ => (.ok none, rl2)

/-- Iterated `TryAcquire` at a fixed instant: the state after `k`
consecutive calls, all made at clock reading `now`. -/
def RateLimiter.tryAcquireIter (rl : RateLimiter) (now : Int) : Nat → RateLimiter
  | 0 => rl
  | k + 1 => ((rl.tryAcquireIter now k).TryAcquire now).2

/-- One call against a limiter, for quantifying over arbitrary call
sequences: a `TryAcquire` or a `Wait`, each at its own clock reading and,
for `Wait`, with the environment's select outcome. -/
inductive RLCall where
  | tryAcquire (now : Int)
  | wait (now : Int) (ctxDone ctxIsDeadline : Bool)

/-- State transition of one call (the result value is discarded). -/
def RateLimiter.step (rl : RateLimiter) : RLCall → RateLimiter
  | .tryAcquire now => (rl.TryAcquire now).2
  | .wait now d dl => (rl.Wait now d dl).2

/-- State after a whole sequence of calls. -/
def RateLimiter.applyCalls (rl : RateLimiter) (calls : List RLCall) : RateLimiter :=
  calls.foldl RateLimiter.step rl

/-- Token-bucket invariant from the specification's data model:
`0 ≤ tokens ≤ capacity`. -/
def RateLimiter.Inv (rl : RateLimiter) : Prop :=
  0 ≤ rl.tokens ∧ rl.tokens ≤ rl.maxTokens

instance (rl : RateLimiter) : Decidable rl.Inv := by
  unfold RateLimiter.Inv; infer_instance

/-- Rate-limiter acquisition stage of `HTTPClient.requestWithHeaders` /
`request` (`rate_limiter.go`): a `nil` limiter means unlimited; an error
returned by `Wait` would be wrapped as `errors.Wrap(errors.ErrRateLimit,
"rate limit error", err)` and abort the request — but a runtime fatal
inside `Wait` kills the process before the wrap can run, and propagates
as the outer `.error`. -/
def rateLimiterStage (lim : Option RateLimiter) (now : Int)
    (ctxDone ctxIsDeadline : Bool) :
    Except GoFatal (Except GoError (Option RateLimiter)) :=
  match lim with
  | none => .ok (.ok none)
  | some rl =>
    match rl.Wait now ctxDone ctxIsDeadline with
    | (.error f, _) => .error f
    | (.ok (some err), _) =>
      .ok (.error (GoError.Wrap ErrRateLimit "rate limit error" err))
    | (.ok none, rl') => .ok (.ok (some rl'))

/-! ### Rate-limiter lemmas -/

theorem refillAt_maxTokens (rl : RateLimiter) (now : Int) :
    (rl.refillAt now).maxTokens = rl.maxTokens := by
  simp only [RateLimiter.refillAt]; split <;> rfl

theorem refillAt_interval (rl : RateLimiter) (now : Int) :
    (rl.refillAt now).interval = rl.interval := by
  simp only [RateLimiter.refillAt]; split <;> rfl

theorem refillAt_inv (rl : RateLimiter) (now : Int) (h : rl.Inv)
    (hi : 0 < rl.interval) : (rl.refillAt now).Inv := by
  obtain ⟨h0, h1⟩ := h
  simp only [RateLimiter.refillAt, RateLimiter.Inv]
  split
  · rename_i hel
    refine ⟨le_min (by omega) ?_, min_le_left _ _⟩
    have : 0 ≤ (now - rl.lastRefill).tdiv rl.interval :=
      Int.tdiv_nonneg (by omega) (by omega)
    omega
  · exact ⟨h0, h1⟩

theorem tryAcquire_maxTokens (rl : RateLimiter) (now : Int) :
    ((rl.TryAcquire now).2).maxTokens = rl.maxTokens := by
  simp only [RateLimiter.TryAcquire]
  have := refillAt_maxTokens rl now
  split <;> simpa

theorem tryAcquire_interval (rl : RateLimiter) (now : Int) :
    ((rl.TryAcquire now).2).interval = rl.interval := by
  simp only [RateLimiter.TryAcquire]
  have := refillAt_interval rl now
  split <;> simpa

theorem tryAcquire_inv (rl : RateLimiter) (now : Int) (h : rl.Inv)
    (hi : 0 < rl.interval) : ((rl.TryAcquire now).2).Inv := by
  have hr := refillAt_inv rl now h hi
  simp only [RateLimiter.TryAcquire, RateLimiter.Inv]
  obtain ⟨h0, h1⟩ := hr
  split
  · exact ⟨h0, h1⟩
  · rename_i hpos
    dsimp only
    omega

theorem wait_maxTokens (rl : RateLimiter) (now : Int) (d dl : Bool) :
    ((rl.Wait now d dl).2).maxTokens = rl.maxTokens := by
  simp only [RateLimiter.Wait, mutexUnlock]
  have := refillAt_maxTokens rl now
  split <;> [skip; simpa]
  split <;> simpa

theorem wait_interval (rl : RateLimiter) (now : Int) (d dl : Bool) :
    ((rl.Wait now d dl).2).interval = rl.interval := by
  simp only [RateLimiter.Wait, mutexUnlock]
  have := refillAt_interval rl now
  split <;> [skip; simpa]
  split <;> simpa

theorem wait_inv (rl : RateLimiter) (now : Int) (d dl : Bool) (h : rl.Inv)
    (hi : 0 < rl.interval) : ((rl.Wait now d dl).2).Inv := by
  have hr := refillAt_inv rl now h hi
  simp only [RateLimiter.Wait, mutexUnlock, RateLimiter.Inv]
  obtain ⟨h0, h1⟩ := hr
  split
  · split
    · exact ⟨h0, h1⟩
    · dsimp only
      omega
  · rename_i hpos
    dsimp only
    omega

theorem step_inv (rl : RateLimiter) (c : RLCall) (h : rl.Inv)
    (hi : 0 < rl.interval) :
    (rl.step c).Inv ∧ (rl.step c).maxTokens = rl.maxTokens ∧
      (rl.step c).interval = rl.interval := by
  cases c with
  | tryAcquire now =>
    exact ⟨tryAcquire_inv rl now h hi, tryAcquire_maxTokens rl now,
      tryAcquire_interval rl now⟩
  | wait now d dl =>
    exact ⟨wait_inv rl now d dl h hi, wait_maxTokens rl now d dl,
      wait_interval rl now d dl⟩

theorem applyCalls_inv (calls : List RLCall) :
    ∀ (rl : RateLimiter), rl.Inv → 0 < rl.interval →
      (rl.applyCalls calls).Inv ∧
        (rl.applyCalls calls).maxTokens = rl.maxTokens := by
  induction calls with
  | nil => exact fun rl h _ => ⟨h, rfl⟩
  | cons c rest ih =>
    intro rl h hi
    obtain ⟨hinv, hmax, hint⟩ := step_inv rl c h hi
    obtain ⟨h1, h2⟩ := ih (rl.step c) hinv (hint ▸ hi)
    exact ⟨h1, h2.trans hmax⟩

/-- State after `k` immediate acquisitions on a fresh limiter of capacity
`N`: `k` tokens are gone, nothing else moved (no whole interval has
elapsed, so the refill block never fires). -/
theorem tryAcquireIter_state (N : Nat) (interval t0 : Int) (hi : 0 < interval) :
    ∀ k : Nat, k ≤ N →
      (NewRateLimiter N interval t0).tryAcquireIter t0 k =
        ⟨(N : Int) - k, N, interval, t0⟩ := by
  intro k
  induction k with
  | zero => intro _; simp [RateLimiter.tryAcquireIter, NewRateLimiter]
  | succ k ih =>
    intro hk
    have hstate := ih (by omega)
    rw [RateLimiter.tryAcquireIter, hstate]
    simp only [RateLimiter.TryAcquire, RateLimiter.refillAt]
    rw [if_neg (show ¬((interval : Int) ≤ t0 - t0) by omega)]
    rw [if_neg (show ¬((N : Int) - (k : Int) ≤ 0) by
      have : (k : Int) < (N : Int) := by exact_mod_cast hk
      omega)]
    push_cast
    ring_nf

/-- Claim C1 (code bug): if the caller's context is cancelled or its
deadline expires while `RateLimiter.Wait` is blocking for a token
(tokens = 0 on entry), the `ctx.Done()` arm executes `return ctx.Err()`
without re-locking the mutex it explicitly unlocked before the select,
so the deferred `rl.mu.Unlock()` fires on an unlocked mutex: the Go
runtime aborts the process (`fatal error: sync: unlock of unlocked
mutex`). The context's error is never returned to the caller, and the
transport never gets to wrap anything — the fatal propagates through the
rate-limiter stage instead — contradicting the claimed
return-without-crashing behaviour, which the specification clearly
intends. -/
theorem wait_cancellation_crashes
    (rl : RateLimiter) (now : Int) (isDeadline : Bool)
    (htok : rl.tokens = 0) (helapsed : now - rl.lastRefill < rl.interval) :
    rl.Wait now true isDeadline =
      (.error GoFatal.unlockOfUnlockedMutex, rl) ∧
    (rl.Wait now true isDeadline).1 ≠
      .ok (some (GoError.ctxErr isDeadline)) ∧
    rateLimiterStage (some rl) now true isDeadline =
      .error GoFatal.unlockOfUnlockedMutex := by
  have hrefill : rl.refillAt now = rl := by
    simp only [RateLimiter.refillAt]
    rw [if_neg (by omega)]
  have hwait : rl.Wait now true isDeadline =
      (.error GoFatal.unlockOfUnlockedMutex, rl) := by
    simp only [RateLimiter.Wait, mutexUnlock, hrefill]
    rw [if_pos (by omega)]
    simp
  refine ⟨hwait, ?_, ?_⟩
  · rw [hwait]
    simp
  · simp [rateLimiterStage, hwait]

/-- Witness for C1's failing input: a limiter of capacity one whose
token is already consumed, `Wait` entered mid-interval with the context
cancelled while it blocks — the run is the runtime fatal, not a returned
error. -/
theorem wait_cancellation_crashes_witness :
    (⟨0, 1, 10, 0⟩ : RateLimiter).Wait 5 true false =
      (.error GoFatal.unlockOfUnlockedMutex, ⟨0, 1, 10, 0⟩) :=
  (wait_cancellation_crashes ⟨0, 1, 10, 0⟩ 5 false rfl
    (by decide)).1

/-- Claim C2 counterexample: on a limiter of capacity 2 (interval 10)
whose two tokens were consumed immediately, letting exactly one full
refill interval elapse makes only ONE token available, not capacity
(= 2) tokens: the refill adds one token per elapsed whole interval
(`min(maxTokens, tokens + periods)`), so the first acquisition after the
interval succeeds and the second fails, contradicting the claim that
capacity tokens are available again. -/
theorem tryAcquire_one_interval_refill_counterexample :
    (((NewRateLimiter 2 10 0).tryAcquireIter 0 2).refillAt 10).tokens = 1 ∧
    ((((NewRateLimiter 2 10 0).tryAcquireIter 0 2).TryAcquire 10).2.TryAcquire
        10).1 = false ∧
    (1 : Int) ≠ 2 := by decide

/-- Claim C2 (amended): for every `RateLimiter` constructed with capacity
`N` (and positive refill interval), exactly `N` consecutive `TryAcquire`
calls succeed and the `(N+1)`-th fails immediately (no time elapsing);
if all tokens have been consumed and `j` full refill intervals then
elapse with no intervening access, `min(N, j)` tokens are available —
in particular ONE token after one full interval, not `N` — and the token
count never exceeds `N` after any sequence of calls, however long the
idle periods. -/
theorem tryAcquire_capacity_and_refill (N : Nat) (interval t0 : Int)
    (hi : 0 < interval) :
    (∀ k : Nat, k < N →
      (((NewRateLimiter N interval t0).tryAcquireIter t0 k).TryAcquire t0).1
        = true) ∧
    ((((NewRateLimiter N interval t0).tryAcquireIter t0 N).TryAcquire t0).1
        = false) ∧
    (∀ j : Nat,
      (((NewRateLimiter N interval t0).tryAcquireIter t0 N).refillAt
          (t0 + j * interval)).tokens = min (N : Int) (j : Int)) ∧
    (∀ calls : List RLCall,
      ((NewRateLimiter N interval t0).applyCalls calls).tokens ≤ (N : Int)) := by
  refine ⟨?_, ?_, ?_, ?_⟩
  · intro k hk
    rw [tryAcquireIter_state N interval t0 hi k (le_of_lt hk)]
    simp only [RateLimiter.TryAcquire, RateLimiter.refillAt]
    rw [if_neg (show ¬((interval : Int) ≤ t0 - t0) by omega)]
    rw [if_neg (show ¬((N : Int) - (k : Int) ≤ 0) by
      have : (k : Int) < (N : Int) := by exact_mod_cast hk
      omega)]
  · rw [tryAcquireIter_state N interval t0 hi N le_rfl]
    simp only [RateLimiter.TryAcquire, RateLimiter.refillAt]
    rw [if_neg (show ¬((interval : Int) ≤ t0 - t0) by omega)]
    rw [if_pos (show ((N : Int) - (N : Int) ≤ 0) by omega)]
  · intro j
    rw [tryAcquireIter_state N interval t0 hi N le_rfl]
    simp only [RateLimiter.refillAt]
    have helapsed : t0 + (j : Int) * interval - t0 = (j : Int) * interval := by
      ring
    rcases Nat.eq_zero_or_pos j with hj | hj
    · subst hj
      rw [if_neg (by push_cast; omega)]
      simp
    · have hj1 : (1 : Int) ≤ (j : Int) := by exact_mod_cast hj
      rw [if_pos (by
        rw [helapsed]
        calc (interval : Int) = 1 * interval := (one_mul _).symm
        _ ≤ (j : Int) * interval := by
          exact mul_le_mul_of_nonneg_right hj1 (le_of_lt hi))]
      simp only [helapsed]
      rw [show ((N : Int) - (N : Int)) = 0 by ring]
      rw [Int.mul_tdiv_cancel _ (ne_of_gt hi)]
      simp
  · intro calls
    have hinv : (NewRateLimiter N interval t0).Inv :=
      ⟨Int.natCast_nonneg N, le_refl _⟩
    obtain ⟨⟨_, h2⟩, hmax⟩ :=
      applyCalls_inv calls (NewRateLimiter N interval t0) hinv hi
    calc ((NewRateLimiter N interval t0).applyCalls calls).tokens
        ≤ ((NewRateLimiter N interval t0).applyCalls calls).maxTokens := h2
      _ = (N : Int) := hmax

/-- Witness for the amended C2 at capacity 2, interval 10: the third
consecutive immediate acquisition fails. -/
theorem tryAcquire_capacity_and_refill_witness :
    ((0 : Int) < 10) ∧
    ((((NewRateLimiter 2 10 0).tryAcquireIter 0 2).TryAcquire 0).1 = false) :=
  ⟨by decide, (tryAcquire_capacity_and_refill 2 10 0 (by decide)).2.1⟩

/-- Claim C8 counterexample: a limiter CAN be constructed with a negative
capacity (nothing in `NewRateLimiter` or the `SetRateLimit` call chain
validates `requests`), and for capacity `-1` the constructor itself
violates `0 ≤ tokens`: the claimed invariant does not hold for every
capacity with which a limiter can be constructed. -/
theorem rateLimiter_invariant_negative_capacity_counterexample :
    ¬ (NewRateLimiter (-1) 10 0).Inv ∧
      (NewRateLimiter (-1) 10 0).tokens = -1 := by decide

/-- Claim C8 (amended): for every limiter constructed with a NONNEGATIVE
capacity and positive refill interval, the invariant
`0 ≤ tokens ≤ capacity` is established by the constructor
(tokens = capacity) and preserved by every complete execution of
`TryAcquire` and of `Wait` (at any clock reading and under any
cancellation outcome), hence holds after every sequence of calls. -/
theorem rateLimiter_invariant (cap interval t0 : Int) (hcap : 0 ≤ cap)
    (hi : 0 < interval) :
    (NewRateLimiter cap interval t0).Inv ∧
    (∀ rl : RateLimiter, rl.Inv → 0 < rl.interval → ∀ now : Int,
      ((rl.TryAcquire now).2).Inv ∧
        ∀ d dl : Bool, ((rl.Wait now d dl).2).Inv) ∧
    (∀ calls : List RLCall,
      ((NewRateLimiter cap interval t0).applyCalls calls).Inv) := by
  refine ⟨⟨hcap, le_refl _⟩, ?_, ?_⟩
  · intro rl h hrl now
    exact ⟨tryAcquire_inv rl now h hrl, fun d dl => wait_inv rl now d dl h hrl⟩
  · intro calls
    exact (applyCalls_inv calls (NewRateLimiter cap interval t0)
      ⟨hcap, le_refl _⟩ hi).1

/-- Witness for the amended C8 at capacity 1, interval 10. -/
theorem rateLimiter_invariant_witness : (NewRateLimiter 1 10 0).Inv :=
  (rateLimiter_invariant 1 10 0 (by decide) (by decide)).1

/-! ## Shared transport configuration (`HTTPClient` in `rate_limiter.go`)

The `headers` field is a Go `map[string]string`, modelled as an
association list whose keys are unique; `m[k] = v` is key-wise
assignment. The `proxies` field is a slice of strings. Both setters run
under the client's write lock, so each is one atomic state
transition. -/

/-- One Go map assignment `m[k] = v` on the association-list model:
replace the value at an existing key, else add the binding. -/
def mapAssign (m : List (String × String)) (k v : String) :
    List (String × String) :=
  match m with
  | [] => [(k, v)]
  | (k', v') :: rest =>
    if k' = k then (k', v) :: rest else (k', v') :: mapAssign rest k v

/-- Method `HTTPClient.SetHeaders`:
`for k, v := range headers \x7b c.headers[k] = v \x7d` — each entry of the
argument is assigned into the existing default-header map; no existing
key is ever deleted. -/
def SetHeaders (cur : List (String × String)) (h : List (String × String)) :
    List (String × String) :=
  h.foldl (fun acc kv => mapAssign acc kv.1 kv.2) cur

/-- Method `HTTPClient.SetProxies`: a fresh slice of the argument's length
is allocated and the argument copied into it; the previous proxy list is
discarded wholesale. -/
def SetProxies (_cur : List String) (proxies : List String) : List String :=
  proxies

theorem mapAssign_lookup (m : List (String × String)) (k v k' : String) :
    (mapAssign m k v).lookup k' = if k' = k then some v else m.lookup k' := by
  induction m with
  | nil =>
    by_cases h : k' = k
    · simp [mapAssign, List.lookup_cons, h]
    · simp [mapAssign, List.lookup_cons, h, beq_false_of_ne h]
  | cons kv rest ih =>
    obtain ⟨k0, v0⟩ := kv
    by_cases h0 : k0 = k
    · subst h0
      by_cases h1 : k' = k0
      · simp [mapAssign, List.lookup_cons, h1]
      · simp [mapAssign, List.lookup_cons, h1, beq_false_of_ne h1]
    · by_cases h1 : k' = k0
      · subst h1
        simp [mapAssign, h0, List.lookup_cons, Ne.symm h0]
      · simp [mapAssign, h0, List.lookup_cons, h1, beq_false_of_ne h1, ih]

theorem mapAssign_keys (m : List (String × String)) (k v : String) :
    ∀ k', (∃ w, (mapAssign m k v).lookup k' = some w) ↔
      (k' = k ∨ ∃ w, m.lookup k' = some w) := by
  intro k'
  rw [mapAssign_lookup]
  by_cases h : k' = k <;> simp [h]

theorem setHeaders_lookup (h : List (String × String)) :
    ∀ (cur : List (String × String)) (k : String),
      (h.map Prod.fst).Nodup →
      (SetHeaders cur h).lookup k = (h.lookup k).or (cur.lookup k) := by
  induction h with
  | nil => intro cur k _; simp [SetHeaders]
  | cons kv rest ih =>
    intro cur k hnd
    obtain ⟨k0, v0⟩ := kv
    rw [List.map_cons, List.nodup_cons] at hnd
    obtain ⟨hk0, hrest⟩ := hnd
    show (SetHeaders (mapAssign cur k0 v0) rest).lookup k = _
    rw [ih _ k hrest, mapAssign_lookup]
    by_cases hkk : k = k0
    · subst hkk
      have hnone : rest.lookup k = none := by
        rw [List.lookup_eq_none_iff]
        intro a hmem
        have hne : k ≠ a.1 := by
          intro heq
          apply (by simpa using hk0 : ∀ x, (k, x) ∉ rest) a.2
          have ha : a = (k, a.2) := by
            obtain ⟨a1, a2⟩ := a
            simp_all
          rwa [ha] at hmem
        simp [bne_iff_ne, hne]
      simp [hnone, List.lookup_cons]
    · simp [List.lookup_cons, hkk, beq_false_of_ne hkk]

/-- Claim C10: `HTTPClient.SetHeaders(h)` merges `h` into the existing
default-header map key by key — every key of `h` ends up bound to `h`'s
value, every key absent from `h` keeps its previous binding, and no call
can remove a previously present key — whereas `SetProxies` replaces the
entire proxy list with (a copy of) its argument, regardless of the
previous list. `h`'s keys are assumed distinct, as Go map iteration
guarantees. -/
theorem setHeaders_merges_setProxies_replaces
    (cur h : List (String × String)) (hnd : (h.map Prod.fst).Nodup) :
    (∀ k v, h.lookup k = some v → (SetHeaders cur h).lookup k = some v) ∧
    (∀ k, h.lookup k = none →
      (SetHeaders cur h).lookup k = cur.lookup k) ∧
    (∀ k v, cur.lookup k = some v →
      ∃ v', (SetHeaders cur h).lookup k = some v') ∧
    (∀ (curProxies newProxies : List String),
      SetProxies curProxies newProxies = newProxies) := by
  refine ⟨?_, ?_, ?_, fun _ _ => rfl⟩
  · intro k v hk
    rw [setHeaders_lookup h cur k hnd, hk]
    rfl
  · intro k hk
    rw [setHeaders_lookup h cur k hnd, hk]
    rfl
  · intro k v hk
    rw [setHeaders_lookup h cur k hnd, hk]
    cases hl : h.lookup k <;> simp

/-- Witness for C10 at a concrete pair of maps: defaults carry two keys,
the update overrides one and adds a third. -/
theorem setHeaders_merges_setProxies_replaces_witness :
    (SetHeaders [("User-Agent", "CEX-SDK/1.0"), ("Content-Type", "application/json")]
        [("Content-Type", "text/plain"), ("Cache-Control", "no-cache")]).lookup
      "User-Agent" = some "CEX-SDK/1.0" :=
  (setHeaders_merges_setProxies_replaces
    [("User-Agent", "CEX-SDK/1.0"), ("Content-Type", "application/json")]
    [("Content-Type", "text/plain"), ("Cache-Control", "no-cache")]
    (by decide)).2.1 "User-Agent" (by decide)

/-! ## Byte-level primitives

The Go standard-library functions used by the signing pipeline —
`encoding/base64` (StdEncoding), `encoding/hex`, `crypto/sha512.New384`,
`crypto/hmac` — realised over `List Nat` byte strings (every element
below 256) exactly as the corresponding RFCs/FIPS specify, so that the
pipeline is executable end to end. -/

/-- UTF-8 encoding of one character (Go strings are UTF-8 byte strings;
`[]byte(s)` yields these bytes). -/
def charUtf8 (c : Char) : List Nat :=
  let n := c.toNat
  if n < 0x80 then [n]
  else if n < 0x800 then
    [0xC0 ||| (n >>> 6), 0x80 ||| (n &&& 0x3F)]
  else if n < 0x10000 then
    [0xE0 ||| (n >>> 12), 0x80 ||| ((n >>> 6) &&& 0x3F), 0x80 ||| (n &&& 0x3F)]
  else
    [0xF0 ||| (n >>> 18), 0x80 ||| ((n >>> 12) &&& 0x3F),
     0x80 ||| ((n >>> 6) &&& 0x3F), 0x80 ||| (n &&& 0x3F)]

/-- Go's `[]byte(s)` conversion: the UTF-8 bytes of the string. -/
def utf8Bytes (s : String) : List Nat :=
  s.data.flatMap charUtf8

/-- Lowercase hexadecimal digit, as `encoding/hex` emits. -/
def hexDigitChar (n : Nat) : Char :=
  "0123456789abcdef".data.getD n '0'

/-- Function `hex.EncodeToString`: two lowercase hex digits per byte. -/
def hexEncode (bs : List Nat) : String :=
  ⟨bs.flatMap (fun b => [hexDigitChar (b / 16), hexDigitChar (b % 16)])⟩

/-- Standard base64 alphabet (RFC 4648, as `base64.StdEncoding`). -/
def b64Alphabet : List Char :=
  "ABCDEFGHIJKLMNOPQRSTUVWXYZabcdefghijklmnopqrstuvwxyz0123456789+/".data

/-- Character for a sextet value below 64. -/
def b64Char (n : Nat) : Char :=
  b64Alphabet.getD n 'A'

/-- Sextet value of an alphabet character, `none` for anything else
(including the pad character). -/
def b64Index (c : Char) : Option Nat :=
  b64Alphabet.indexOf? c

/-- Function `base64.StdEncoding.EncodeToString`, three input bytes to
four output characters, with `=` padding on a short final chunk. -/
def b64EncodeChunks : List Nat → List Char
  | [] => []
  | [b1] => [b64Char (b1 / 4), b64Char (b1 % 4 * 16), '=', '=']
  | [b1, b2] =>
    [b64Char (b1 / 4), b64Char (b1 % 4 * 16 + b2 / 16), b64Char (b2 % 16 * 4), '=']
  | b1 :: b2 :: b3 :: rest =>
    b64Char (b1 / 4) :: b64Char (b1 % 4 * 16 + b2 / 16) ::
      b64Char (b2 % 16 * 4 + b3 / 64) :: b64Char (b3 % 64) :: b64EncodeChunks rest

/-- String form of standard base64 encoding. -/
def base64StdEncode (bs : List Nat) : String :=
  ⟨b64EncodeChunks bs⟩

/-- Standard base64 decoding (`base64.StdEncoding.DecodeString`): four
characters to three bytes, the final chunk carrying one or two pad
characters for a short input; anything else is rejected. -/
def b64DecodeChunks : List Char → Option (List Nat)
  | [] => some []
  | c1 :: c2 :: c3 :: c4 :: rest =>
    match b64Index c1, b64Index c2 with
    | some s1, some s2 =>
      if c3 = '=' ∧ c4 = '=' ∧ rest = [] then
        some [s1 * 4 + s2 / 16]
      else if c4 = '=' ∧ rest = [] then
        match b64Index c3 with
        | some s3 => some [s1 * 4 + s2 / 16, s2 % 16 * 16 + s3 / 4]
        | none => none
      else
        match b64Index c3, b64Index c4, b64DecodeChunks rest with
        | some s3, some s4, some tail =>
          some ((s1 * 4 + s2 / 16) :: (s2 % 16 * 16 + s3 / 4) ::
            (s3 % 4 * 64 + s4) :: tail)
        | _, _, _ => none
    | _, _ => none
  | _ => none

/-- String form of standard base64 decoding. -/
def base64StdDecode (s : String) : Option (List Nat) :=
  b64DecodeChunks s.data

/-! ### SHA-512/384 and HMAC (`crypto/sha512.New384`, `crypto/hmac`) -/

/-- Reduction to a 64-bit word. -/
def w64 (n : Nat) : Nat := n % 18446744073709551616

/-- Rotate a 64-bit word right by `n` bits. -/
def rotr64 (x n : Nat) : Nat :=
  w64 ((x >>> n) ||| (x <<< (64 - n)))

/-- SHA-512 round constants (FIPS 180-4): first 64 bits of the fractional
parts of the cube roots of the first eighty primes, written in decimal
(the first entry is 0x428a2f98d728ae22, the last 0x6c44198c4a475817). -/
def sha512K : List Nat := [
  4794697086780616226, 8158064640168781261, 13096744586834688815,
  16840607885511220156, 4131703408338449720, 6480981068601479193,
  10538285296894168987, 12329834152419229976, 15566598209576043074,
  1334009975649890238, 2608012711638119052, 6128411473006802146,
  8268148722764581231, 9286055187155687089, 11230858885718282805,
  13951009754708518548, 16472876342353939154, 17275323862435702243,
  1135362057144423861, 2597628984639134821, 3308224258029322869,
  5365058923640841347, 6679025012923562964, 8573033837759648693,
  10970295158949994411, 12119686244451234320, 12683024718118986047,
  13788192230050041572, 14330467153632333762, 15395433587784984357,
  489312712824947311, 1452737877330783856, 2861767655752347644,
  3322285676063803686, 5560940570517711597, 5996557281743188959,
  7280758554555802590, 8532644243296465576, 9350256976987008742,
  10552545826968843579, 11727347734174303076, 12113106623233404929,
  14000437183269869457, 14369950271660146224, 15101387698204529176,
  15463397548674623760, 17586052441742319658, 1182934255886127544,
  1847814050463011016, 2177327727835720531, 2830643537854262169,
  3796741975233480872, 4115178125766777443, 5681478168544905931,
  6601373596472566643, 7507060721942968483, 8399075790359081724,
  8693463985226723168, 9568029438360202098, 10144078919501101548,
  10430055236837252648, 11840083180663258601, 13761210420658862357,
  14299343276471374635, 14566680578165727644, 15097957966210449927,
  16922976911328602910, 17689382322260857208, 500013540394364858,
  748580250866718886, 1242879168328830382, 1977374033974150939,
  2944078676154940804, 3659926193048069267, 4368137639120453308,
  4836135668995329356, 5532061633213252278, 6448918945643986474,
  6902733635092675308, 7801388544844847127]

/-- SHA-384 initial hash value (FIPS 180-4): first 64 bits of the
fractional parts of the square roots of the ninth through sixteenth
primes, written in decimal (0xcbbb9d5dc1059ed8 … 0x47b5481dbefa4fa4). -/
def sha384IV : List Nat :=
  [14680500436340154072, 7105036623409894663,
   10473403895298186519, 1526699215303891257,
   7436329637833083697, 10282925794625328401,
   15784041429090275239, 5167115440072839076]

/-- Big-endian byte string of length `k` for a number. -/
def beBytes (k : Nat) (n : Nat) : List Nat :=
  (List.range k).map (fun i => (n >>> (8 * (k - 1 - i))) % 256)

/-- FIPS 180-4 message padding for SHA-512: append `0x80`, zero bytes up
to 112 mod 128, then the 128-bit big-endian bit length. -/
def sha512Pad (msg : List Nat) : List Nat :=
  let padLen := (128 + 112 - (msg.length + 1) % 128) % 128
  msg ++ [0x80] ++ List.replicate padLen 0 ++ beBytes 16 (8 * msg.length)

/-- Eight consecutive bytes to one big-endian 64-bit word; incomplete
trailing chunks are dropped (the padded message never has any). -/
def toWords64 : List Nat → List Nat
  | b1 :: b2 :: b3 :: b4 :: b5 :: b6 :: b7 :: b8 :: rest =>
    (((((((b1 * 256 + b2) * 256 + b3) * 256 + b4) * 256 + b5) * 256 + b6)
        * 256 + b7) * 256 + b8) :: toWords64 rest
  | _ => []

/-- Split a word list into complete 16-word blocks (a padded SHA-512
message always splits evenly; an incomplete tail would be dropped). -/
def chunkWords : List Nat → List (List Nat)
  | w1 :: w2 :: w3 :: w4 :: w5 :: w6 :: w7 :: w8 ::
      w9 :: w10 :: w11 :: w12 :: w13 :: w14 :: w15 :: w16 :: rest =>
    [w1, w2, w3, w4, w5, w6, w7, w8, w9, w10, w11, w12, w13, w14, w15, w16] ::
      chunkWords rest
  | _ => []

/-- FIPS 180-4 `σ0` for SHA-512. -/
def smallSigma0 (x : Nat) : Nat :=
  rotr64 x 1 ^^^ rotr64 x 8 ^^^ (x >>> 7)

/-- FIPS 180-4 `σ1` for SHA-512. -/
def smallSigma1 (x : Nat) : Nat :=
  rotr64 x 19 ^^^ rotr64 x 61 ^^^ (x >>> 6)

/-- FIPS 180-4 `Σ0` for SHA-512. -/
def bigSigma0 (x : Nat) : Nat :=
  rotr64 x 28 ^^^ rotr64 x 34 ^^^ rotr64 x 39

/-- FIPS 180-4 `Σ1` for SHA-512. -/
def bigSigma1 (x : Nat) : Nat :=
  rotr64 x 14 ^^^ rotr64 x 18 ^^^ rotr64 x 41

/-- Message-schedule extension: append `k` derived words to the sixteen
block words. -/
def extendW (w : List Nat) : Nat → List Nat
  | 0 => w
  | k + 1 =>
    let prev := extendW w k
    prev ++ [w64 (smallSigma1 (prev.getD (prev.length - 2) 0) +
      prev.getD (prev.length - 7) 0 +
      smallSigma0 (prev.getD (prev.length - 15) 0) +
      prev.getD (prev.length - 16) 0)]

/-- One compression round on the eight-word working state. -/
def sha512Round (kt wt : Nat) (s : List Nat) : List Nat :=
  match s with
  | [a, b, c, d, e, f, g, h] =>
    let t1 := w64 (h + bigSigma1 e +
      ((e &&& f) ^^^ ((e ^^^ 0xFFFFFFFFFFFFFFFF) &&& g)) + kt + wt)
    let t2 := w64 (bigSigma0 a + ((a &&& b) ^^^ (a &&& c) ^^^ (b &&& c)))
    [w64 (t1 + t2), a, b, c, w64 (d + t1), e, f, g]
  | s => s

/-- Compress one 16-word block into the running hash state. -/
def sha512Block (H : List Nat) (block : List Nat) : List Nat :=
  let W := extendW block 64
  let s := (List.range 80).foldl
    (fun st t => sha512Round (sha512K.getD t 0) (W.getD t 0) st) H
  List.zipWith (fun x y => w64 (x + y)) H s

/-- SHA-384 digest (`sha512.New384` / `Sum384`): SHA-512 compression from
the SHA-384 initial value, output truncated to the first six state words
(48 bytes). -/
def sha384 (msg : List Nat) : List Nat :=
  let H := (chunkWords (toWords64 (sha512Pad msg))).foldl sha512Block sha384IV
  (H.take 6).flatMap (beBytes 8)

/-- Function `hmac.New(sha512.New384, key)` followed by `Write(msg)` and
`Sum(nil)` (RFC 2104 with SHA-384, block size 128): keys longer than one
block are first hashed, the key is zero-padded to the block size, and the
digest is `H((key XOR opad) || H((key XOR ipad) || msg))`. -/
def hmacSha384 (key msg : List Nat) : List Nat :=
  let key := if 128 < key.length then sha384 key else key
  let keyPad := key ++ List.replicate (128 - key.length) 0
  let inner := sha384 ((keyPad.map (fun b => b ^^^ 0x36)) ++ msg)
  sha384 ((keyPad.map (fun b => b ^^^ 0x5c)) ++ inner)

/-! ### Base64 round-trip and byte bounds -/

theorem b64Index_b64Char : ∀ n : Nat, n < 64 → b64Index (b64Char n) = some n := by
  decide

theorem b64Char_ne_pad : ∀ n : Nat, n < 64 → b64Char n ≠ '=' := by
  decide

theorem byte_lor_lt {x y : Nat} (hx : x < 256) (hy : y < 256) :
    (x ||| y) < 256 :=
  Nat.bitwise_lt_two_pow (n := 8) hx hy

/-- Every UTF-8 byte is below 256. -/
theorem charUtf8_lt (c : Char) : ∀ b ∈ charUtf8 c, b < 256 := by
  intro b hb
  have hmask : ∀ x : Nat, x &&& 0x3F < 256 := fun x =>
    lt_of_le_of_lt (Nat.and_le_right) (by omega)
  simp only [charUtf8] at hb
  split at hb
  · rename_i h1
    simp at hb
    omega
  · split at hb
    · rename_i h1 h2
      have hsr : c.toNat >>> 6 < 256 := by
        rw [Nat.shiftRight_eq_div_pow]
        omega
      simp at hb
      rcases hb with hb | hb <;> subst hb
      · exact byte_lor_lt (by omega) hsr
      · exact byte_lor_lt (by omega) (hmask _)
    · split at hb
      · rename_i h1 h2 h3
        have hsr : c.toNat >>> 12 < 256 := by
          rw [Nat.shiftRight_eq_div_pow]
          omega
        simp at hb
        rcases hb with hb | hb | hb <;> subst hb
        · exact byte_lor_lt (by omega) hsr
        · exact byte_lor_lt (by omega) (hmask _)
        · exact byte_lor_lt (by omega) (hmask _)
      · rename_i h1 h2 h3
        have hc : c.toNat < 1114112 := by
          have hv := c.valid
          rcases hv with h | ⟨ha, hb2⟩ <;> (show c.val.toNat < _; omega)
        have hsr : c.toNat >>> 18 < 256 := by
          rw [Nat.shiftRight_eq_div_pow]
          omega
        simp at hb
        rcases hb with hb | hb | hb | hb <;> subst hb
        · exact byte_lor_lt (by omega) hsr
        · exact byte_lor_lt (by omega) (hmask _)
        · exact byte_lor_lt (by omega) (hmask _)
        · exact byte_lor_lt (by omega) (hmask _)

/-- Every byte of a Go string conversion is below 256. -/
theorem utf8Bytes_lt (s : String) : ∀ b ∈ utf8Bytes s, b < 256 := by
  intro b hb
  unfold utf8Bytes at hb
  rw [List.mem_flatMap] at hb
  obtain ⟨c, _, hc⟩ := hb
  exact charUtf8_lt c b hc

/-- Standard base64 decoding is a left inverse of encoding on byte
strings: decoding what `EncodeToString` produced recovers exactly the
input bytes. -/
theorem b64_decode_encode (bs : List Nat) (h : ∀ b ∈ bs, b < 256) :
    b64DecodeChunks (b64EncodeChunks bs) = some bs := by
  induction bs using b64EncodeChunks.induct with
  | case1 => rfl
  | case2 b1 =>
    have hb1 : b1 < 256 := h b1 (by simp)
    simp only [b64EncodeChunks, b64DecodeChunks]
    rw [b64Index_b64Char _ (by omega), b64Index_b64Char _ (by omega)]
    simp only
    rw [if_pos (by simp)]
    simp only [Option.some.injEq, List.cons.injEq, and_true]
    omega
  | case3 b1 b2 =>
    have hb1 : b1 < 256 := h b1 (by simp)
    have hb2 : b2 < 256 := h b2 (by simp)
    simp only [b64EncodeChunks, b64DecodeChunks]
    rw [b64Index_b64Char _ (by omega), b64Index_b64Char _ (by omega)]
    simp only
    rw [if_neg (by
      rintro ⟨hpad, -, -⟩
      exact b64Char_ne_pad _ (by omega) hpad)]
    rw [if_pos (by simp)]
    rw [b64Index_b64Char _ (by omega)]
    simp only [Option.some.injEq, List.cons.injEq, and_true]
    constructor
    · omega
    · omega
  | case4 b1 b2 b3 rest ih =>
    have hb1 : b1 < 256 := h b1 (by simp)
    have hb2 : b2 < 256 := h b2 (by simp)
    have hb3 : b3 < 256 := h b3 (by simp)
    have hrest : ∀ b ∈ rest, b < 256 := fun b hb => h b (by simp [hb])
    simp only [b64EncodeChunks, b64DecodeChunks]
    rw [b64Index_b64Char _ (by omega), b64Index_b64Char _ (by omega)]
    simp only
    rw [if_neg (by
      rintro ⟨hpad, -, -⟩
      exact b64Char_ne_pad _ (by omega) hpad)]
    rw [if_neg (by
      rintro ⟨hpad, -⟩
      exact b64Char_ne_pad _ (by omega) hpad)]
    rw [b64Index_b64Char _ (by omega), b64Index_b64Char _ (by omega), ih hrest]
    simp only [Option.some.injEq, List.cons.injEq, and_true]
    omega

/-- String-level round-trip. -/
theorem base64_decode_encode (bs : List Nat) (h : ∀ b ∈ bs, b < 256) :
    base64StdDecode (base64StdEncode bs) = some bs :=
  b64_decode_encode bs h

/-! ## JSON marshaling (`encoding/json`, as used by the request structs)

The request payloads are structs of string (and one bool, one string
slice) fields; `json.Marshal` emits the fields in declaration order,
omits `omitempty` fields whose value is the zero value (empty string,
`false`, nil/empty slice), and escapes strings with the default
`escapeHTML` behaviour. -/

/-- Decimal digit character. -/
def digitChar (d : Nat) : Char := Char.ofNat (48 + d)

/-- Fuel-bounded digit recursion (structural, so that the kernel can
evaluate it; the fuel `n + 1` of `natDecChars` always suffices since a
number has at most `n + 1` decimal digits). -/
def natDecCharsAux (fuel : Nat) (n : Nat) : List Char :=
  match fuel with
  | 0 => []
  | fuel + 1 =>
    if n < 10 then [digitChar n]
    else natDecCharsAux fuel (n / 10) ++ [digitChar (n % 10)]

/-- Decimal digit string of a natural number, as
`strconv.FormatInt(n, 10)` produces for nonnegative `n`. -/
def natDecChars (n : Nat) : List Char := natDecCharsAux (n + 1) n

/-- String form of the decimal representation. -/
def natDecString (n : Nat) : String := ⟨natDecChars n⟩

/-- Escape one character the way `encoding/json` does with its default
`escapeHTML = true` encoder: `"` and `\` and the named control escapes,
`\u00XX` for other control characters and for `<`, `>`, `&`, `\u202X`
for the line/paragraph separators, everything else verbatim. -/
def goJSONEscapeChar (c : Char) : List Char :=
  if c = '"' then ['\\', '"']
  else if c = '\\' then ['\\', '\\']
  else if c = '\n' then ['\\', 'n']
  else if c = '\r' then ['\\', 'r']
  else if c = '\t' then ['\\', 't']
  else if c.toNat < 0x20 then
    ['\\', 'u', '0', '0', hexDigitChar (c.toNat / 16), hexDigitChar (c.toNat % 16)]
  else if c = '<' ∨ c = '>' ∨ c = '&' then
    ['\\', 'u', '0', '0', hexDigitChar (c.toNat / 16), hexDigitChar (c.toNat % 16)]
  else if c.toNat = 0x2028 ∨ c.toNat = 0x2029 then
    ['\\', 'u', '2', '0', '2', hexDigitChar (c.toNat % 16)]
  else [c]

/-- JSON string literal of a Go string. -/
def goJSONString (s : String) : String :=
  ⟨('"' :: s.data.flatMap goJSONEscapeChar) ++ ['"']⟩

/-- JSON array literal of a Go `[]string`. -/
def jsonStringArray (xs : List String) : String :=
  "[" ++ String.intercalate "," (xs.map goJSONString) ++ "]"

/-! ## Gemini private operations (`order.go`, `fund.go`, `gemini.go`)

Each private method guards on credentials, stamps `request` (the
endpoint path) and `nonce` (decimal nanosecond timestamp) into its
payload struct, marshals it to JSON, base64-encodes the JSON bytes,
signs the base64 string with HMAC-SHA384 under the API secret, and
issues a POST with a nil body whose request data travels entirely in
headers. The nanosecond clock reading feeding the nonce is the explicit
`nonce : Nat` parameter. -/

/-- Struct `NewOrderRequest` (caller-supplied fields; `Request` and
`Nonce` are stamped by `PlaceOrder` itself). `OrderSide`/`OrderType` are
Go string types and stay strings here; `type'` stands for the Go field
`Type` (a Lean keyword). -/
structure NewOrderRequest where
  clientOrderID : String
  symbol : String
  amount : String
  price : String
  side : String
  type' : String
  options : List String
  account : String

/-- The seven private operations, with their caller-supplied
parameters exactly as the Go method signatures take them. -/
inductive PrivateOp where
  | placeOrder (req : NewOrderRequest)
  | cancelOrder (orderID account : String)
  | getActiveOrders (account : String)
  | getOrderStatus (orderID clientOrderID : String) (includeTrades : Bool)
      (account : String)
  | getAvailableBalances (account : String)
  | getNotionalBalances (currency account : String)
  | listDepositAddresses (network account : String)

/-- Endpoint path of each operation (also stamped into the signed
payload as the `request` field — the URL/signed-field duality of the
wire contract). -/
def PrivateOp.endpoint : PrivateOp → String
  | .placeOrder _ => "/v1/order/new"
  | .cancelOrder _ _ => "/v1/order/cancel"
  | .getActiveOrders _ => "/v1/orders"
  | .getOrderStatus _ _ _ _ => "/v1/order/status"
  | .getAvailableBalances _ => "/v1/balances"
  | .getNotionalBalances currency _ => "/v1/notionalbalances/" ++ currency
  | .listDepositAddresses network _ => "/v1/addresses/" ++ network

/-- The `json.Marshal` output for each request struct: fields in
declaration order, `request` then `nonce` first, `omitempty` fields
dropped at their zero value. -/
def PrivateOp.marshal (op : PrivateOp) (nonce : Nat) : String :=
  let head := "\x7b\"request\":" ++ goJSONString op.endpoint ++
    ",\"nonce\":" ++ goJSONString (natDecString nonce)
  match op with
  | .placeOrder r =>
    head ++
      ((if r.clientOrderID = "" then "" else
        ",\"client_order_id\":" ++ goJSONString r.clientOrderID) ++
      ",\"symbol\":" ++ goJSONString r.symbol ++
      ",\"amount\":" ++ goJSONString r.amount ++
      (if r.price = "" then "" else ",\"price\":" ++ goJSONString r.price) ++
      ",\"side\":" ++ goJSONString r.side ++
      ",\"type\":" ++ goJSONString r.type' ++
      (if r.options = [] then "" else
        ",\"options\":" ++ jsonStringArray r.options) ++
      (if r.account = "" then "" else
        ",\"account\":" ++ goJSONString r.account) ++ "\x7d")
  | .cancelOrder orderID account =>
    head ++ (",\"order_id\":" ++ goJSONString orderID ++
      (if account = "" then "" else
        ",\"account\":" ++ goJSONString account) ++ "\x7d")
  | .getActiveOrders account =>
    head ++
      ((if account = "" then "" else
        ",\"account\":" ++ goJSONString account) ++ "\x7d")
  | .getOrderStatus orderID clientOrderID includeTrades account =>
    head ++ (",\"order_id\":" ++ goJSONString orderID ++
      (if clientOrderID = "" then "" else
        ",\"client_order_id\":" ++ goJSONString clientOrderID) ++
      (if includeTrades then ",\"include_trades\":true" else "") ++
      (if account = "" then "" else
        ",\"account\":" ++ goJSONString account) ++ "\x7d")
  | .getAvailableBalances account =>
    head ++
      ((if account = "" then "" else
        ",\"account\":" ++ goJSONString account) ++ "\x7d")
  | .getNotionalBalances _ account =>
    head ++
      ((if account = "" then "" else
        ",\"account\":" ++ goJSONString account) ++ "\x7d")
  | .listDepositAddresses _ account =>
    head ++
      ((if account = "" then "" else
        ",\"account\":" ++ goJSONString account) ++ "\x7d")

/-- Per-operation wrap message for a failed dispatch. -/
def PrivateOp.dispatchFailMsg : PrivateOp → String
  | .placeOrder _ => "failed to place order"
  | .cancelOrder _ _ => "failed to cancel order"
  | .getActiveOrders _ => "failed to fetch active orders"
  | .getOrderStatus _ _ _ _ => "failed to fetch order status"
  | .getAvailableBalances _ => "failed to fetch available balances"
  | .getNotionalBalances _ _ => "failed to fetch notional balances"
  | .listDepositAddresses _ _ => "failed to list deposit addresses"

/-- Per-operation wrap message for a success-type parse failure. -/
def PrivateOp.parseFailMsg : PrivateOp → String
  | .placeOrder _ => "failed to parse order response"
  | .cancelOrder _ _ => "failed to parse cancel order response"
  | .getActiveOrders _ => "failed to parse orders response"
  | .getOrderStatus _ _ _ _ => "failed to parse order status response"
  | .getAvailableBalances _ => "failed to parse balances response"
  | .getNotionalBalances _ _ => "failed to parse notional balances response"
  | .listDepositAddresses _ _ => "failed to parse deposit addresses response"

/-- Constant `errorStatus` in `gemini.go`. -/
def errorStatus : String := "error"

/-- Exchange session state (`Gemini` struct); the HTTP client handle,
logger, user agent and the per-domain API category pointers are
infrastructure collaborators carrying no state the verified operations
read or write, and are not represented. -/
structure Gemini where
  baseURL : String
  apiKey : String
  apiSecret : String
  sandbox : Bool

/-- An outgoing HTTP request as handed to
`HTTPClient.PostWithHeaders`. -/
structure GoRequest where
  method : String
  url : String
  body : Option (List Nat)
  headers : List (String × String)

/-- The signed private request each operation builds before dispatch:
JSON payload, base64 of its UTF-8 bytes as the payload header,
hex-encoded HMAC-SHA384 of the base64 STRING (not the JSON bytes) under
the API secret as the signature header; POST with nil body. -/
def privateOpRequest (g : Gemini) (op : PrivateOp) (nonce : Nat) : GoRequest :=
  let payload := base64StdEncode (utf8Bytes (op.marshal nonce))
  let signature := hexEncode (hmacSha384 (utf8Bytes g.apiSecret) (utf8Bytes payload))
  { method := "POST"
    url := g.baseURL ++ op.endpoint
    body := none
    headers := [("X-GEMINI-APIKEY", g.apiKey),
                ("X-GEMINI-PAYLOAD", payload),
                ("X-GEMINI-SIGNATURE", signature),
                ("Content-Type", "text/plain"),
                ("Content-Length", "0"),
                ("Cache-Control", "no-cache")] }

/-! ## Response handling and the operation pipeline -/

/-- A parsed JSON document, for stating what `json.Unmarshal` does with
a response body; numbers keep their literal text (never inspected
here). -/
inductive JValue where
  | null
  | bool (b : Bool)
  | num (text : String)
  | str (s : String)
  | arr (elems : List JValue)
  | obj (fields : List (String × JValue))

/-- Struct `ErrorResponse` (`types.go`): the exchange's application-error
envelope. -/
structure ErrorResponse where
  result : String
  reason : String
  message : String

/-- One string field under Go `json.Unmarshal` semantics: an absent key
or JSON `null` leaves the zero value `""`; a JSON string sets it; any
other type is an unmarshal error. -/
def goStringField (fields : List (String × JValue)) (name : String) :
    Option String :=
  match fields.lookup name with
  | none => some ""
  | some .null => some ""
  | some (.str s) => some s
  | some _ => none

/-- What `json.Unmarshal(body, &errorResp)` yields on a parsed body:
`none` when Go would report an error (non-object document or a
wrong-typed field), otherwise the populated struct. -/
def unmarshalErrorResponse : JValue → Option ErrorResponse
  | .obj fields =>
    match goStringField fields "result", goStringField fields "reason",
        goStringField fields "message" with
    | some r, some rs, some m => some ⟨r, rs, m⟩
    | _, _, _ => none
  | _ => none

/-- Observable steps of one operation, in order: the rate-limiter
acquisition and HTTP dispatch inside the transport, the signing before
it, and the success-type deserialization attempt after it. -/
inductive Effect where
  | sign
  | rateLimiterAcquire
  | httpDispatch (req : GoRequest)
  | parseSuccess

/-- Environment behaviour for one request: whether a private limiter is
configured, the outcome of its `Wait` (`some e` = context error `e`),
and the network outcome — a transport-level error or an HTTP status with
the response body (`none` body = bytes that are not valid JSON). -/
structure NetEnv where
  limiterPresent : Bool
  waitErr : Option GoError
  netResult : Except GoError (Nat × Option JValue)

/-- Transport method `HTTPClient.requestWithHeaders` (via
`PostWithHeaders`): rate-limit with the private limiter if present
(wrapping a `Wait` failure as `ErrRateLimit`), dispatch, wrap a
transport failure as `ErrNetworkError` "request failed", reject any
non-200 status as an `ErrNetworkError` (diagnostic text elides the body
bytes), and otherwise hand back the raw body. -/
def requestWithHeaders (env : NetEnv) (req : GoRequest) :
    Except GoError (Option JValue) × List Effect :=
  if env.limiterPresent then
    match env.waitErr with
    | some err =>
      (.error (GoError.Wrap ErrRateLimit "rate limit error" err),
       [Effect.rateLimiterAcquire])
    | none =>
      match env.netResult with
      | .error e =>
        (.error (GoError.Wrap ErrNetworkError "request failed" e),
         [Effect.rateLimiterAcquire, Effect.httpDispatch req])
      | .ok (status, body) =>
        if status ≠ 200 then
          (.error (GoError.New ErrNetworkError
            ("HTTP error: " ++ natDecString status)),
           [Effect.rateLimiterAcquire, Effect.httpDispatch req])
        else
          (.ok body, [Effect.rateLimiterAcquire, Effect.httpDispatch req])
  else
    match env.netResult with
    | .error e =>
      (.error (GoError.Wrap ErrNetworkError "request failed" e),
       [Effect.httpDispatch req])
    | .ok (status, body) =>
      if status ≠ 200 then
        (.error (GoError.New ErrNetworkError
          ("HTTP error: " ++ natDecString status)),
         [Effect.httpDispatch req])
      else
        (.ok body, [Effect.httpDispatch req])

/-- One complete private operation: the credentials guard, then build
and sign the request, dispatch it through the transport, probe the
response for the error envelope, and only then attempt the success-type
deserialization (`parseOk` says whether `json.Unmarshal` into the
operation's success type would succeed; its Go error value is abstracted
as a plain error string). Returns the Go result, the effect trace, and
the session state it leaves behind. -/
def privateOpRun (g : Gemini) (op : PrivateOp) (nonce : Nat) (env : NetEnv)
    (parseOk : Option JValue → Bool) :
    Except GoError Unit × List Effect × Gemini :=
  if g.apiKey = "" ∨ g.apiSecret = "" then
    (.error (GoError.New ErrInvalidInput
      "API key and secret are required for private endpoints"), [], g)
  else
    let req := privateOpRequest g op nonce
    let (res, effs) := requestWithHeaders env req
    match res with
    | .error e =>
      (.error (GoError.Wrap ErrNetworkError op.dispatchFailMsg e),
       Effect.sign :: effs, g)
    | .ok body =>
      let successParse : Except GoError Unit × List Effect × Gemini :=
        if parseOk body then
          (.ok (), (Effect.sign :: effs) ++ [Effect.parseSuccess], g)
        else
          (.error (GoError.Wrap ErrDataParsingError op.parseFailMsg
            (GoError.str "json unmarshal error")),
           (Effect.sign :: effs) ++ [Effect.parseSuccess], g)
      match body with
      | some bj =>
        match unmarshalErrorResponse bj with
        | some er =>
          if er.result = errorStatus then
            (.error (GoError.New ErrAPIError
              ("Gemini API error: " ++ er.reason ++ " - " ++ er.message)),
             Effect.sign :: effs, g)
          else successParse
        | none => successParse
      | none => successParse

/-! ### Lemmas about marshaling and the signed request -/

theorem strAppend_data (s t : String) : (s ++ t).data = s.data ++ t.data := rfl

theorem flatMap_escape_self (l : List Char)
    (h : ∀ c ∈ l, goJSONEscapeChar c = [c]) :
    l.flatMap goJSONEscapeChar = l := by
  induction l with
  | nil => rfl
  | cons c cs ih =>
    rw [List.flatMap_cons, h c (by simp), ih (fun x hx => h x (by simp [hx]))]
    rfl

theorem natDecCharsAux_digits (fuel : Nat) : ∀ n c, c ∈ natDecCharsAux fuel n →
    ∃ d, d < 10 ∧ c = digitChar d := by
  induction fuel with
  | zero => simp [natDecCharsAux]
  | succ fuel ih =>
    intro n c hc
    simp only [natDecCharsAux] at hc
    split at hc
    · rename_i h
      simp at hc
      exact ⟨n, h, hc⟩
    · rw [List.mem_append] at hc
      rcases hc with hc | hc
      · exact ih _ c hc
      · simp at hc
        exact ⟨n % 10, by omega, hc⟩

theorem goJSONEscapeChar_digit : ∀ d : Nat, d < 10 →
    goJSONEscapeChar (digitChar d) = [digitChar d] := by decide

/-- Decimal digits pass through the JSON string escaper verbatim, so the
nonce is carried as the plain quoted decimal. -/
theorem goJSONString_natDecString (n : Nat) :
    (goJSONString (natDecString n)).data = '"' :: (natDecChars n ++ ['"']) := by
  have h : (natDecChars n).flatMap goJSONEscapeChar = natDecChars n := by
    apply flatMap_escape_self
    intro c hc
    obtain ⟨d, hd, rfl⟩ := natDecCharsAux_digits _ _ c hc
    exact goJSONEscapeChar_digit d hd
  simp [goJSONString, natDecString, h]

/-- Appending more payload on the right preserves a substring
decomposition. -/
theorem append_keeps_decomp (core : List Char) (A B : String)
    (h : ∃ pre suf, A.data = pre ++ core ++ suf) :
    ∃ pre suf, (A ++ B).data = pre ++ core ++ suf := by
  obtain ⟨p, s, h⟩ := h
  exact ⟨p, s ++ B.data, by simp [strAppend_data, h]⟩

/-- The common `\x7b"request":…,"nonce":"…"` head of every marshaled
payload exhibits the quoted decimal nonce field. -/
theorem head_has_nonce_field (endpoint : String) (nonce : Nat) :
    ∃ pre suf, ("\x7b\"request\":" ++ goJSONString endpoint ++ ",\"nonce\":" ++
        goJSONString (natDecString nonce)).data =
      pre ++ ("\"nonce\":\"".data ++ natDecChars nonce ++ ['"']) ++ suf := by
  refine ⟨("\x7b\"request\":" ++ goJSONString endpoint ++ ",").data, [], ?_⟩
  simp [strAppend_data, goJSONString_natDecString]

/-- Every marshaled private payload carries the field
`"nonce":"<decimal>"`. -/
theorem marshal_has_nonce_field (op : PrivateOp) (nonce : Nat) :
    ∃ pre suf, (op.marshal nonce).data =
      pre ++ ("\"nonce\":\"".data ++ natDecChars nonce ++ ['"']) ++ suf := by
  cases op <;>
    (simp only [PrivateOp.marshal]
     exact append_keeps_decomp _ _ _ (head_has_nonce_field _ _))

/-- Any request the transport is handed inside `requestWithHeaders`'s
effect trace is the one it was called with. -/
theorem requestWithHeaders_dispatch (env : NetEnv) (req req' : GoRequest)
    (h : Effect.httpDispatch req' ∈ (requestWithHeaders env req).2) :
    req' = req := by
  unfold requestWithHeaders at h
  split at h
  · split at h
    · simp at h
    · split at h
      · simp at h
        exact h
      · split at h <;> (simp at h; exact h)
  · split at h
    · simp at h
      exact h
    · split at h <;> (simp at h; exact h)

/-- Claim C3: for every API secret, endpoint, and request field set, the
X-GEMINI-PAYLOAD header is the standard base64 encoding of the JSON
marshaling of the field set, base64-decoding it recovers exactly the
JSON bytes, and the X-GEMINI-SIGNATURE header is the hex encoding of the
HMAC-SHA384 digest keyed by the secret over the base64 payload STRING —
whose bytes differ from the raw JSON bytes, as the concrete instance in
the last conjunct exhibits. -/
theorem signing_payload_and_signature (g : Gemini) (op : PrivateOp)
    (nonce : Nat) :
    (privateOpRequest g op nonce).headers.lookup "X-GEMINI-PAYLOAD" =
      some (base64StdEncode (utf8Bytes (op.marshal nonce))) ∧
    base64StdDecode (base64StdEncode (utf8Bytes (op.marshal nonce))) =
      some (utf8Bytes (op.marshal nonce)) ∧
    (privateOpRequest g op nonce).headers.lookup "X-GEMINI-SIGNATURE" =
      some (hexEncode (hmacSha384 (utf8Bytes g.apiSecret)
        (utf8Bytes (base64StdEncode (utf8Bytes (op.marshal nonce)))))) ∧
    utf8Bytes (base64StdEncode
        (utf8Bytes ((PrivateOp.getAvailableBalances "").marshal 12345))) ≠
      utf8Bytes ((PrivateOp.getAvailableBalances "").marshal 12345) :=
  ⟨rfl, base64_decode_encode _ (utf8Bytes_lt _), rfl, by decide⟩

/-- Claim C4: every private operation issues an HTTP POST with a nil
body; all request data travels in the headers X-GEMINI-APIKEY,
X-GEMINI-PAYLOAD and X-GEMINI-SIGNATURE together with
`Content-Type: text/plain` and `Content-Length: 0` (plus the
`Cache-Control: no-cache` the code also sets); the nonce is the decimal
string of the nanosecond timestamp placed inside the signed JSON
payload, and no header carries it — the header names are exactly the six
listed. Whatever request the operation's run ever dispatches is exactly
this one. -/
theorem private_post_wire_contract (g : Gemini) (op : PrivateOp) (nonce : Nat) :
    (privateOpRequest g op nonce).method = "POST" ∧
    (privateOpRequest g op nonce).body = none ∧
    (privateOpRequest g op nonce).headers.map Prod.fst =
      ["X-GEMINI-APIKEY", "X-GEMINI-PAYLOAD", "X-GEMINI-SIGNATURE",
       "Content-Type", "Content-Length", "Cache-Control"] ∧
    (privateOpRequest g op nonce).headers.lookup "X-GEMINI-APIKEY" =
      some g.apiKey ∧
    (privateOpRequest g op nonce).headers.lookup "Content-Type" =
      some "text/plain" ∧
    (privateOpRequest g op nonce).headers.lookup "Content-Length" =
      some "0" ∧
    (∃ pre suf, (op.marshal nonce).data =
      pre ++ ("\"nonce\":\"".data ++ natDecChars nonce ++ ['"']) ++ suf) ∧
    (∀ (env : NetEnv) (parseOk : Option JValue → Bool) (req' : GoRequest),
      Effect.httpDispatch req' ∈ (privateOpRun g op nonce env parseOk).2.1 →
        req' = privateOpRequest g op nonce) := by
  refine ⟨rfl, rfl, rfl, rfl, rfl, rfl, marshal_has_nonce_field op nonce, ?_⟩
  intro env parseOk req' hmem
  unfold privateOpRun at hmem
  split at hmem
  · simp at hmem
  · rcases hres : requestWithHeaders env (privateOpRequest g op nonce)
      with ⟨res, effs⟩
    simp only [hres] at hmem
    have heffs : Effect.httpDispatch req' ∈ effs →
        req' = privateOpRequest g op nonce := fun h =>
      requestWithHeaders_dispatch env _ req' (by rw [hres]; exact h)
    rcases res with e | body
    · simp at hmem
      exact heffs hmem
    · rcases body with _ | bj
      · simp only [] at hmem
        split at hmem <;> (simp at hmem; exact heffs hmem)
      · rcases hum : unmarshalErrorResponse bj with _ | er
        · simp only [hum] at hmem
          split at hmem <;> (simp at hmem; exact heffs hmem)
        · simp only [hum] at hmem
          split at hmem
          · simp at hmem
            exact heffs hmem
          · split at hmem <;> (simp at hmem; exact heffs hmem)

/-- Claim C5: any private operation invoked with an empty API key or an
empty API secret returns the `InvalidInput` error immediately, with an
empty effect trace — no rate-limiter acquisition, no signing, no HTTP
dispatch — and the session state unchanged. -/
theorem private_guard_empty_credentials (g : Gemini) (op : PrivateOp)
    (nonce : Nat) (env : NetEnv) (parseOk : Option JValue → Bool)
    (h : g.apiKey = "" ∨ g.apiSecret = "") :
    privateOpRun g op nonce env parseOk =
      (.error (GoError.New ErrInvalidInput
        "API key and secret are required for private endpoints"), [], g) ∧
    (GoError.New ErrInvalidInput
      "API key and secret are required for private endpoints").code =
        ErrInvalidInput := by
  constructor
  · unfold privateOpRun
    rw [if_pos h]
  · rfl

/-- Witness for C5: empty key, concrete everything else. -/
theorem private_guard_empty_credentials_witness :
    privateOpRun ⟨"https://api.gemini.com", "", "secret", false⟩
        (PrivateOp.getAvailableBalances "") 1
        ⟨true, none, .ok (200, none)⟩ (fun _ => true) =
      (.error (GoError.New ErrInvalidInput
        "API key and secret are required for private endpoints"), [],
       ⟨"https://api.gemini.com", "", "secret", false⟩) :=
  (private_guard_empty_credentials _ _ _ _ _ (Or.inl rfl)).1

/-- Claim C6: on an HTTP 200 response whose body is a JSON object with
`result == "error"` and string fields `reason` and `message`, every
private operation returns the `APIError` carrying both values, and never
attempts to deserialize the body as its success type (no
success-deserialization step appears in the trace, whatever the
success-type parser would have said). -/
theorem error_envelope_precedence (g : Gemini) (op : PrivateOp) (nonce : Nat)
    (env : NetEnv) (parseOk : Option JValue → Bool)
    (fields : List (String × JValue)) (reason message : String)
    (hkey : g.apiKey ≠ "") (hsec : g.apiSecret ≠ "")
    (hwait : env.waitErr = none)
    (hnet : env.netResult = .ok (200, some (JValue.obj fields)))
    (hres : fields.lookup "result" = some (.str "error"))
    (hreason : fields.lookup "reason" = some (.str reason))
    (hmsg : fields.lookup "message" = some (.str message)) :
    (privateOpRun g op nonce env parseOk).1 =
      .error (GoError.New ErrAPIError
        ("Gemini API error: " ++ reason ++ " - " ++ message)) ∧
    Effect.parseSuccess ∉ (privateOpRun g op nonce env parseOk).2.1 := by
  rcases hres2 : requestWithHeaders env (privateOpRequest g op nonce)
    with ⟨res, effs⟩
  have hres2' := hres2
  unfold requestWithHeaders at hres2'
  rw [hwait, hnet] at hres2'
  have hresv : res = .ok (some (JValue.obj fields)) ∧
      Effect.parseSuccess ∉ effs := by
    split at hres2' <;>
      (simp only [] at hres2'
       rw [if_neg (show ¬((200 : Nat) ≠ 200) by simp)] at hres2'
       rw [Prod.mk.injEq] at hres2'
       obtain ⟨h1, h2⟩ := hres2'
       subst h2
       exact ⟨h1.symm, by simp⟩)
  obtain ⟨hresv1, hresv2⟩ := hresv
  subst hresv1
  have hum : unmarshalErrorResponse (JValue.obj fields) =
      some ⟨"error", reason, message⟩ := by
    simp [unmarshalErrorResponse, goStringField, hres, hreason, hmsg]
  have hrun : privateOpRun g op nonce env parseOk =
      (.error (GoError.New ErrAPIError
        ("Gemini API error: " ++ reason ++ " - " ++ message)),
       Effect.sign :: effs, g) := by
    unfold privateOpRun
    rw [if_neg (not_or.mpr ⟨hkey, hsec⟩)]
    simp only [hres2, hum, errorStatus]
    simp
  rw [hrun]
  refine ⟨rfl, ?_⟩
  intro hmem
  simp at hmem
  exact hresv2 hmem

/-- Witness for C6: a concrete 200 envelope response with reason
`InvalidNonce` and message `Nonce is too small`. -/
theorem error_envelope_precedence_witness :
    (privateOpRun ⟨"https://api.gemini.com", "key", "secret", false⟩
        (PrivateOp.getAvailableBalances "") 1
        ⟨true, none, .ok (200, some (JValue.obj
          [("result", JValue.str "error"),
           ("reason", JValue.str "InvalidNonce"),
           ("message", JValue.str "Nonce is too small")]))⟩
        (fun _ => true)).1 =
      .error (GoError.New ErrAPIError
        ("Gemini API error: " ++ "InvalidNonce" ++ " - " ++
          "Nonce is too small")) :=
  (error_envelope_precedence
    ⟨"https://api.gemini.com", "key", "secret", false⟩
    (PrivateOp.getAvailableBalances "") 1
    ⟨true, none, .ok (200, some (JValue.obj
      [("result", JValue.str "error"),
       ("reason", JValue.str "InvalidNonce"),
       ("message", JValue.str "Nonce is too small")]))⟩
    (fun _ => true)
    [("result", JValue.str "error"),
     ("reason", JValue.str "InvalidNonce"),
     ("message", JValue.str "Nonce is too small")]
    "InvalidNonce" "Nonce is too small"
    (by decide) (by decide) rfl rfl rfl rfl rfl).1

/-! ## Currency extraction (`gemini.go`) and symbol-detail fan-out
(`market.go`)

`strings.ToLower`/`ToUpper` are realised on the ASCII range (every
Gemini symbol and every entry of the quote-currency list is ASCII, and
the functions leave other code points untouched there); Go's byte
indexing coincides with character indexing on this domain. -/

/-- ASCII lower-casing of one character (`strings.ToLower` on the inputs
at hand). -/
def asciiLowerChar (c : Char) : Char :=
  if 65 ≤ c.toNat ∧ c.toNat ≤ 90 then Char.ofNat (c.toNat + 32) else c

/-- ASCII upper-casing of one character (`strings.ToUpper` on the inputs
at hand). -/
def asciiUpperChar (c : Char) : Char :=
  if 97 ≤ c.toNat ∧ c.toNat ≤ 122 then Char.ofNat (c.toNat - 32) else c

/-- Function `strings.ToLower` (ASCII domain). -/
def asciiLower (s : String) : String := ⟨s.data.map asciiLowerChar⟩

/-- Function `strings.ToUpper` (ASCII domain). -/
def asciiUpper (s : String) : String := ⟨s.data.map asciiUpperChar⟩

/-- Function `strings.HasSuffix`. -/
def goHasSuffix (s suffix : String) : Bool :=
  decide (suffix.data.length ≤ s.data.length) &&
    (s.data.drop (s.data.length - suffix.data.length) == suffix.data)

/-- The fixed list of known quote currencies, in source order. -/
def quoteCurrencies : List String :=
  ["usd", "btc", "eth", "eur", "gbp", "sgd", "gusd", "dai"]

/-- Function `extractBaseCurrency`: lower-case the symbol, return the
part before the FIRST quote currency (in list order) that is a suffix,
upper-cased; otherwise, for symbols of length at least 6 the first three
characters, else the whole symbol, upper-cased. -/
def extractBaseCurrency (symbol : String) : String :=
  let s := asciiLower symbol
  match quoteCurrencies.find? (fun q => goHasSuffix s q) with
  | some q => asciiUpper ⟨s.data.take (s.data.length - q.data.length)⟩
  | none =>
    if 6 ≤ s.data.length then asciiUpper ⟨s.data.take 3⟩
    else asciiUpper s

/-- Function `extractQuoteCurrency`: lower-case the symbol, return the
FIRST quote currency (in list order) that is a suffix, upper-cased;
otherwise, for symbols of length at least 6 the last three characters
upper-cased, else the default "USD". -/
def extractQuoteCurrency (symbol : String) : String :=
  let s := asciiLower symbol
  match quoteCurrencies.find? (fun q => goHasSuffix s q) with
  | some q => asciiUpper q
  | none =>
    if 6 ≤ s.data.length then asciiUpper ⟨s.data.drop (s.data.length - 3)⟩
    else "USD"

/-- Spec-side definition, following the claim's words: the
LONGEST-match of the lower-cased symbol's suffix against the fixed
quote-currency list. -/
def longestMatchQuote (s : String) : Option String :=
  (quoteCurrencies.filter (fun q => goHasSuffix s q)).foldl
    (fun acc q =>
      match acc with
      | none => some q
      | some b => if b.data.length < q.data.length then some q else acc)
    none

/-- Spec-side `extractQuoteCurrency` per the claim's words
(longest-match). -/
def extractQuoteCurrencySpec (symbol : String) : String :=
  let s := asciiLower symbol
  match longestMatchQuote s with
  | some q => asciiUpper q
  | none =>
    if 6 ≤ s.data.length then asciiUpper ⟨s.data.drop (s.data.length - 3)⟩
    else "USD"

/-- Spec-side `extractBaseCurrency` per the claim's words
(longest-match). -/
def extractBaseCurrencySpec (symbol : String) : String :=
  let s := asciiLower symbol
  match longestMatchQuote s with
  | some q => asciiUpper ⟨s.data.take (s.data.length - q.data.length)⟩
  | none =>
    if 6 ≤ s.data.length then asciiUpper ⟨s.data.take 3⟩
    else asciiUpper s

/-- Spec-side FIRST-match suffix search, written as the explicit
decision chain in source list order (`usd` before `gusd`, so a symbol
ending in `gusd` is matched by `usd` first and the `gusd` entry is
unreachable). -/
def firstMatchQuoteSpec (s : String) : Option String :=
  if goHasSuffix s "usd" then some "usd"
  else if goHasSuffix s "btc" then some "btc"
  else if goHasSuffix s "eth" then some "eth"
  else if goHasSuffix s "eur" then some "eur"
  else if goHasSuffix s "gbp" then some "gbp"
  else if goHasSuffix s "sgd" then some "sgd"
  else if goHasSuffix s "gusd" then some "gusd"
  else if goHasSuffix s "dai" then some "dai"
  else none

theorem find?_quote_eq_firstMatch (s : String) :
    quoteCurrencies.find? (fun q => goHasSuffix s q) = firstMatchQuoteSpec s := by
  unfold quoteCurrencies firstMatchQuoteSpec
  by_cases h1 : goHasSuffix s "usd" = true
  · rw [List.find?_cons_of_pos _ (by simpa using h1), if_pos h1]
  · rw [List.find?_cons_of_neg _ (by simpa using h1), if_neg h1]
    by_cases h2 : goHasSuffix s "btc" = true
    · rw [List.find?_cons_of_pos _ (by simpa using h2), if_pos h2]
    · rw [List.find?_cons_of_neg _ (by simpa using h2), if_neg h2]
      by_cases h3 : goHasSuffix s "eth" = true
      · rw [List.find?_cons_of_pos _ (by simpa using h3), if_pos h3]
      · rw [List.find?_cons_of_neg _ (by simpa using h3), if_neg h3]
        by_cases h4 : goHasSuffix s "eur" = true
        · rw [List.find?_cons_of_pos _ (by simpa using h4), if_pos h4]
        · rw [List.find?_cons_of_neg _ (by simpa using h4), if_neg h4]
          by_cases h5 : goHasSuffix s "gbp" = true
          · rw [List.find?_cons_of_pos _ (by simpa using h5), if_pos h5]
          · rw [List.find?_cons_of_neg _ (by simpa using h5), if_neg h5]
            by_cases h6 : goHasSuffix s "sgd" = true
            · rw [List.find?_cons_of_pos _ (by simpa using h6), if_pos h6]
            · rw [List.find?_cons_of_neg _ (by simpa using h6), if_neg h6]
              by_cases h7 : goHasSuffix s "gusd" = true
              · rw [List.find?_cons_of_pos _ (by simpa using h7), if_pos h7]
              · rw [List.find?_cons_of_neg _ (by simpa using h7), if_neg h7]
                by_cases h8 : goHasSuffix s "dai" = true
                · rw [List.find?_cons_of_pos _ (by simpa using h8), if_pos h8]
                · rw [List.find?_cons_of_neg _ (by simpa using h8), if_neg h8]
                  rfl

/-- Claim C7 counterexample: the code searches the quote list in order
and returns the FIRST suffix match, not the longest: `usd` precedes
`gusd`, so for `btcgusd` the code yields quote `USD` and base `BTCG`,
while the claimed longest-match heuristic yields `GUSD` and `BTC`. -/
theorem extract_currency_first_match_counterexample :
    extractQuoteCurrency "btcgusd" = "USD" ∧
    extractQuoteCurrencySpec "btcgusd" = "GUSD" ∧
    extractBaseCurrency "btcgusd" = "BTCG" ∧
    extractBaseCurrencySpec "btcgusd" = "BTC" ∧
    ("USD" : String) ≠ "GUSD" := by decide

/-- Claim C7 (amended): `extractBaseCurrency` and
`extractQuoteCurrency` implement the heuristic with FIRST-match (in the
fixed order usd, btc, eth, eur, gbp, sgd, gusd, dai) of the lower-cased
symbol's suffix against the quote-currency list; on no match, for
symbols of length at least 6 the first three characters (uppercased) are
the base and the last three the quote; otherwise the whole uppercased
symbol is the base and "USD" the quote. In particular
`extractBaseCurrency "btcusd" = "BTC"`,
`extractQuoteCurrency "btcusd" = "USD"`,
`extractBaseCurrency "ethbtc" = "ETH"`,
`extractQuoteCurrency "ethbtc" = "BTC"`. -/
theorem extract_currency_first_match (symbol : String) :
    (extractBaseCurrency symbol =
      match firstMatchQuoteSpec (asciiLower symbol) with
      | some q => asciiUpper ⟨(asciiLower symbol).data.take
          ((asciiLower symbol).data.length - q.data.length)⟩
      | none =>
        if 6 ≤ (asciiLower symbol).data.length then
          asciiUpper ⟨(asciiLower symbol).data.take 3⟩
        else asciiUpper (asciiLower symbol)) ∧
    (extractQuoteCurrency symbol =
      match firstMatchQuoteSpec (asciiLower symbol) with
      | some q => asciiUpper q
      | none =>
        if 6 ≤ (asciiLower symbol).data.length then
          asciiUpper ⟨(asciiLower symbol).data.drop
            ((asciiLower symbol).data.length - 3)⟩
        else "USD") ∧
    extractBaseCurrency "btcusd" = "BTC" ∧
    extractQuoteCurrency "btcusd" = "USD" ∧
    extractBaseCurrency "ethbtc" = "ETH" ∧
    extractQuoteCurrency "ethbtc" = "BTC" := by
  refine ⟨?_, ?_, by decide, by decide, by decide, by decide⟩
  · unfold extractBaseCurrency
    dsimp only
    rw [find?_quote_eq_firstMatch]
  · unfold extractQuoteCurrency
    dsimp only
    rw [find?_quote_eq_firstMatch]

/-- Method `MarketAPI.GetAllSymbolDetails`: fetch the symbol list (an
error there is wrapped and aborts the call), then fetch details for each
symbol sequentially, skipping (and only logging) the symbols whose fetch
fails, accumulating the successes in order. The network is the explicit
oracle pair (`listResult` for `ListSymbols`, `getSymbolDetails` for the
per-symbol call); the detail record type is a parameter as its fields
(including `float64` ones) are never inspected. -/
def GetAllSymbolDetails {D : Type} (listResult : Except GoError (List String))
    (getSymbolDetails : String → Except GoError D) :
    Except GoError (List D) :=
  match listResult with
  | .error err =>
    .error (GoError.Wrap ErrNetworkError "failed to fetch symbols list" err)
  | .ok symbols =>
    .ok (symbols.foldl
      (fun allDetails symbol =>
        match getSymbolDetails symbol with
        | .error _ => allDetails
        | .ok details => allDetails ++ [details])
      [])

theorem getAll_foldl_skip {D : Type} (f : String → Except GoError D) :
    ∀ (syms : List String) (acc : List D),
      syms.foldl
        (fun allDetails symbol =>
          match f symbol with
          | .error _ => allDetails
          | .ok details => allDetails ++ [details]) acc =
      acc ++ syms.filterMap (fun s => (f s).toOption) := by
  intro syms
  induction syms with
  | nil => simp
  | cons s rest ih =>
    intro acc
    rw [List.foldl_cons, List.filterMap_cons]
    cases hfs : f s with
    | error e => simp [hfs, ih, Except.toOption]
    | ok d => simp [hfs, ih, Except.toOption]

/-- Claim C9: `GetAllSymbolDetails` never fails the whole call because a
per-symbol fetch fails — whenever the symbol-list fetch succeeds, it
returns exactly the subset of per-symbol details whose fetches
succeeded, in symbol-list order; and it returns an error exactly when
the symbol-list fetch itself fails. -/
theorem getAllSymbolDetails_best_effort {D : Type}
    (listResult : Except GoError (List String))
    (f : String → Except GoError D) :
    (∀ syms, listResult = .ok syms →
      GetAllSymbolDetails listResult f =
        .ok (syms.filterMap (fun s => (f s).toOption))) ∧
    ((∃ e, GetAllSymbolDetails listResult f = .error e) ↔
      ∃ e, listResult = .error e) := by
  constructor
  · intro syms hok
    subst hok
    unfold GetAllSymbolDetails
    dsimp only
    rw [getAll_foldl_skip f syms []]
    simp
  · cases listResult with
    | error e => simp [GetAllSymbolDetails]
    | ok syms => simp [GetAllSymbolDetails]

/-- Witness for C9: a three-symbol list whose middle fetch fails yields
exactly the two successful details, in order. -/
theorem getAllSymbolDetails_best_effort_witness :
    GetAllSymbolDetails (D := String) (.ok ["btcusd", "bad", "ethusd"])
      (fun s => if s = "bad" then .error (GoError.str "boom") else .ok s) =
      .ok ["btcusd", "ethusd"] :=
  ((getAllSymbolDetails_best_effort (.ok ["btcusd", "bad", "ethusd"])
      (fun s => if s = "bad" then .error (GoError.str "boom") else .ok s)).1
    ["btcusd", "bad", "ethusd"] rfl).trans (by rfl)

end CexSdk
